import Mathlib

/-!
Formal model of the `renderer-helm` package (k8s-manifest-kit/renderer-helm).

The Go sources embedded here are `pkg/helm.go`, `pkg/helm_support.go`,
`pkg/helm_cache.go` and `pkg/helm_option.go`.  External collaborators
(the Helm engine, chart loader, YAML decoder, the generic render cache and
the `util.DeepMerge` helper, which live in other repositories of the
organisation) are modelled either as explicit function parameters
(`Collaborators`) or, where the specification pins their behaviour, as
definitions marked `Modelled from the spec`.

Go maps are modelled as association lists; iterating a Go map corresponds
to traversing the list in its given order (Go randomises that order, so
whenever iteration order matters the list order is an input of the model).
Mutation is modelled by explicit state passing, and `error` returns by
`Except`/`Option`.  Calls that the code guards with a mutex are modelled as
atomic steps; a set of concurrent calls on one holder is represented by the
sequence in which they enter their critical sections.
-/

namespace RendererHelm

/-- Tree of string-keyed values (`map[string]any` leaves in Go): strings,
integers, booleans, lists and nested maps. -/
inductive Value where
  | str (s : String)
  | num (n : Int)
  | bool (b : Bool)
  | arr (elems : List Value)
  | obj (fields : List (String × Value))

/-- Go `map[string]any`, as an association list (first binding wins on lookup). -/
abbrev VMap := List (String × Value)

/-- Lookup in an association list, modelling Go map indexing `m[k]`. -/
def lookupAssoc {α : Type} (m : List (String × α)) (k : String) : Option α :=
  match m with
  | [] => none
  | (k₁, v₁) :: rest => if k₁ = k then some v₁ else lookupAssoc rest k

/-- Update in an association list, modelling Go map assignment `m[k] = v`. -/
def setAssoc {α : Type} (m : List (String × α)) (k : String) (v : α) : List (String × α) :=
  match m with
  | [] => [(k, v)]
  | (k₁, v₁) :: rest => if k₁ = k then (k, v) :: rest else (k₁, v₁) :: setAssoc rest k v

mutual

/-- Modelled from the spec: `util.DeepMerge` from `k8s-manifest-kit/pkg/util`
(the repository under verification calls it in `Renderer.values`, helm.go:183,
but its source lives in a sibling repository).  Deep merge with the override
side winning: the override map is folded into the base map key by key.  A Go
`nil` override map iterates as an empty map, hence `DeepMerge base [] = base`. -/
def DeepMerge (base override : VMap) : VMap :=
  match override with
  | [] => base
  | (k, v) :: rest => DeepMerge (mergeEntry base k v) rest

/-- Merge a single override binding `k ↦ v` into `base`: when both sides hold
maps the merge recurses, otherwise the override value replaces the base value
entirely (lists included). -/
def mergeEntry (base : VMap) (k : String) (v : Value) : VMap :=
  match lookupAssoc base k, v with
  | some (Value.obj bm), Value.obj vm => setAssoc base k (Value.obj (DeepMerge bm vm))
  | _, _ => setAssoc base k v

end

/-- Result of merging an optional base value with an override value at one key:
two maps merge recursively, anything else is replaced by the override. -/
def mergeVal : Option Value → Value → Value
  | some (Value.obj bm), Value.obj vm => Value.obj (DeepMerge bm vm)
  | some (Value.obj _), v => v
  | some (Value.str _), v => v
  | some (Value.num _), v => v
  | some (Value.bool _), v => v
  | some (Value.arr _), v => v
  | none, v => v


/-! ### Strings and validation (`pkg/helm_support.go`) -/

/-- Whitespace characters recognised by Go `strings.TrimSpace` (ASCII range;
the additional Unicode space classes play no role for the validated names,
which the pattern restricts to ASCII). -/
def isSpaceChar (c : Char) : Bool :=
  c = ' ' || c = '\t' || c = '\n' || c = '\x0b' || c = '\x0c' || c = '\r'

/-- Go `strings.TrimSpace`: drop leading and trailing whitespace. -/
def trimSpace (s : String) : String :=
  String.mk (((s.data.dropWhile isSpaceChar).reverse.dropWhile isSpaceChar).reverse)

/-- Lowercase-alphanumeric test, the character class `[a-z0-9]` of
`releaseNamePattern`. -/
def isLowerAlnum (c : Char) : Bool :=
  ('a' ≤ c && c ≤ 'z') || ('0' ≤ c && c ≤ '9')

/-- Language of the anchored regular expression
`^[a-z0-9]([-a-z0-9]*[a-z0-9])?$` (helm_support.go:30): nonempty, every
character lowercase alphanumeric or a hyphen, and the first and last
characters alphanumeric. -/
def releaseNameMatches (s : String) : Bool :=
  match s.data with
  | [] => false
  | c :: rest =>
    isLowerAlnum c && isLowerAlnum ((c :: rest).getLastD '-') &&
      (c :: rest).all (fun ch => isLowerAlnum ch || ch = '-')

/-- Cancellation causes of a Go `context` (`context.Canceled`,
`context.DeadlineExceeded`). -/
inductive CtxCause where
  | canceled
  | deadlineExceeded
deriving DecidableEq, Repr

/-- Result of `ctx.Err()` at a checkpoint: `none` while the context is live,
`some cause` once it is cancelled or past its deadline. -/
abbrev Ctx := Option CtxCause

/-- Go `error` values as built by this package: sentinel errors
(`errors.New`), context errors, and `fmt.Errorf` wrappers with `%w`.  The
wrappers that interpolate identifying data carry that data as separate
fields, mirroring the format verbs of the corresponding `fmt.Errorf` call. -/
inductive GoErr where
  | base (msg : String)
  | ctxErr (cause : CtxCause)
  | wrap (msg : String) (inner : GoErr)
  | wrapSrc (msg : String) (chart releaseName : String) (inner : GoErr)
  | wrapLoc (msg : String) (repo chart version : String) (inner : GoErr)
deriving DecidableEq, Repr

/-- Go `errors.Is(err, context.Canceled) || errors.Is(err, context.DeadlineExceeded)`:
an error chain is a recognisable cancellation error when unwrapping reaches a
context error. -/
def GoErr.isCtxErr : GoErr → Bool
  | .base _ => false
  | .ctxErr _ => true
  | .wrap _ inner => inner.isCtxErr
  | .wrapSrc _ _ _ inner => inner.isCtxErr
  | .wrapLoc _ _ _ _ inner => inner.isCtxErr

def ErrChartEmpty : GoErr := .base "chart cannot be empty or whitespace-only"

def ErrReleaseNameEmpty : GoErr := .base "release name cannot be empty or whitespace-only"

def ErrReleaseNameTooLong : GoErr := .base "release name exceeds maximum length"

def ErrReleaseNameInvalidFormat : GoErr :=
  .base "release name must consist of lowercase alphanumeric characters or hyphens, and must start and end with an alphanumeric character"

/-- Maximum allowed length for a Helm release name (helm_support.go:26). -/
def maxReleaseNameLength : Nat := 53

/-- Basic-auth credentials (helm.go:23). -/
structure Credentials where
  username : String
  password : String
deriving DecidableEq, Repr

/-- One CRD file of a chart, as returned by `chart.CRDObjects()` (`Name` and
`File.Data`). -/
structure CRDFile where
  name : String
  data : String
deriving DecidableEq, Repr

/-- Loaded Helm chart (`chart.Chart` from helm.sh/helm/v3, external).  Only
the parts the renderer reads are modelled: the declared CRD objects and an
identity tag distinguishing distinct loaded chart objects. -/
structure Chart where
  id : Nat
  crds : List CRDFile
deriving DecidableEq, Repr

/-- Helm chart source configuration (`Source`, helm.go:32).  The dynamic
`Values` and `Credentials` provider functions are modelled by the outcome of
invoking them with the call context: `none` models a nil function pointer,
and the inner `Option` models a provider returning a nil map / nil
credentials. -/
structure Source where
  repo : String := ""
  chart : String
  releaseName : String
  releaseVersion : String := ""
  values : Option (Except GoErr (Option VMap)) := none
  credentials : Option (Except GoErr (Option Credentials)) := none
  processDependencies : Bool := false

/-- Per-source holder (`sourceHolder`, helm_support.go:73): the source plus
the lazily loaded chart.  The `sync.RWMutex` is modelled by treating each
`LoadChart` call as one atomic step on this state. -/
structure sourceHolder where
  source : Source
  chart : Option Chart := none

/-- Validation of a source (`sourceHolder.Validate`, helm_support.go:84). -/
def sourceHolder.Validate (h : sourceHolder) : Option GoErr :=
  if (trimSpace h.source.chart).data.length = 0 then
    some ErrChartEmpty
  else if (trimSpace h.source.releaseName).data.length = 0 then
    some ErrReleaseNameEmpty
  else if (trimSpace h.source.releaseName).data.length > maxReleaseNameLength then
    some (.wrap "must not exceed 53 characters" ErrReleaseNameTooLong)
  else if ¬ releaseNameMatches (trimSpace h.source.releaseName) then
    some (.wrap "got invalid release name" ErrReleaseNameInvalidFormat)
  else
    none

/-! ### Chart loading (`pkg/helm_support.go`) -/

/-- The subset of `action.ChartPathOptions` that `createChartPathOptions`
fills in (helm_support.go:192). -/
structure ChartPathOptions where
  repoURL : String
  version : String
  username : String := ""
  password : String := ""
deriving DecidableEq, Repr

/-- Rendered Kubernetes object (`unstructured.Unstructured`, external): an
opaque payload plus its annotation map. -/
structure Obj where
  content : String
  annotationMap : List (String × String) := []
deriving DecidableEq, Repr

/-- External collaborator operations (helm.sh/helm/v3 and
k8s-manifest-kit/pkg/util/k8s), injected as functions.  `renderChart`
returns the rendered files as a list of (output name, text) pairs: the Go
engine returns a `map[string]string`, and the list order stands for the map
iteration order of one particular traversal, which Go does not fix. -/
structure Collaborators where
  locateChart : ChartPathOptions → String → Except GoErr String
  loadChart : String → Except GoErr Chart
  renderChart : Chart → VMap → Except GoErr (List (String × String))
  decodeYAML : String → Except GoErr (List Obj)
  toRenderValues : Chart → VMap → String → Except GoErr VMap
  processDeps : Chart → VMap → Option GoErr

/-- Instrumentation events recording which expensive or cache operations a
call performed. -/
inductive Ev where
  | loadStarted
  | renderStarted
  | cacheLookup
  | cacheStore
  | decodeFile (name : String)
deriving DecidableEq, Repr

/-- Construction of chart path options (`createChartPathOptions`,
helm_support.go:179).  `registry.NewClient` is an in-process constructor and
is modelled as succeeding; the credentials provider outcome is read from the
source. -/
def createChartPathOptions (ctx : Ctx) (source : Source) : Except GoErr ChartPathOptions :=
  let _ := ctx
  let opt : ChartPathOptions := { repoURL := source.repo, version := source.releaseVersion }
  match source.credentials with
  | none => .ok opt
  | some (.error e) => .error (.wrap "failed to get credentials" e)
  | some (.ok none) => .ok opt
  | some (.ok (some creds)) =>
    .ok { opt with username := creds.username, password := creds.password }

/-- Lazy, double-checked chart load (`sourceHolder.LoadChart`,
helm_support.go:114).  Returns the updated holder, the instrumentation
events, and the result.  The read-lock fast path and the write-lock
double-check both collapse to the `some` branch of the first match, because
every call is one atomic step in this model. -/
def sourceHolder.LoadChart (co : Collaborators) (ctx : Ctx) (h : sourceHolder) :
    sourceHolder × List Ev × Except GoErr Chart :=
  match h.chart with
  | some c => (h, [], .ok c)
  | none =>
    match ctx with
    | some cause => (h, [], .error (.wrap "context cancelled during chart load" (.ctxErr cause)))
    | none =>
      match createChartPathOptions ctx h.source with
      | .error e => (h, [], .error e)
      | .ok opt =>
        match co.locateChart opt h.source.chart with
        | .error e =>
          (h, [.loadStarted],
            .error (.wrapLoc "unable to locate chart" h.source.repo h.source.chart
              h.source.releaseVersion e))
        | .ok path =>
          match co.loadChart path with
          | .error e =>
            (h, [.loadStarted],
              .error (.wrapLoc "failed to load chart" h.source.repo h.source.chart
                h.source.releaseVersion e))
          | .ok c => ({ h with chart := some c }, [.loadStarted], .ok c)

/-! ### Cache subsystem (`pkg/helm_cache.go`) -/

/-- Renderer type identifier (helm.go:20). -/
def rendererType : String := "helm"

/-- Source-tracking annotation keys (`types.AnnotationSource*` from
k8s-manifest-kit/engine, values documented in helm_option.go:109). -/
def AnnotationSourceType : String := "manifests.k8s-manifests-lib/source.type"

def AnnotationSourcePath : String := "manifests.k8s-manifests-lib/source.path"

def AnnotationSourceFile : String := "manifests.k8s-manifests-lib/source.file"

/-- Cache-key input (`ChartSpec`, helm_cache.go:14). -/
structure ChartSpec where
  chart : String
  releaseName : String
  releaseVersion : String
  values : VMap

/-- Prefix-free encoding of an integer into a natural number. -/
def encodeInt (n : Int) : Nat :=
  Nat.pair (if n < 0 then 1 else 0) n.natAbs

def encodeChar (c : Char) : Nat := c.toNat

def encodeCharList : List Char → Nat
  | [] => 0
  | c :: cs => Nat.pair (encodeChar c) (encodeCharList cs) + 1

def encodeString (s : String) : Nat := encodeCharList s.data

mutual

def encodeValue : Value → Nat
  | .str s => Nat.pair 0 (encodeString s)
  | .num n => Nat.pair 1 (encodeInt n)
  | .bool b => Nat.pair 2 (cond b 1 0)
  | .arr xs => Nat.pair 3 (encodeValueList xs)
  | .obj m => Nat.pair 4 (encodeEntries m)

def encodeValueList : List Value → Nat
  | [] => 0
  | v :: vs => Nat.pair (encodeValue v) (encodeValueList vs) + 1

def encodeEntries : List (String × Value) → Nat
  | [] => 0
  | (k, v) :: rest => Nat.pair (encodeString k) (Nat.pair (encodeValue v) (encodeEntries rest)) + 1

end

/-- Structural encoding of a complete `ChartSpec`. -/
def encodeSpec (spec : ChartSpec) : Nat :=
  Nat.pair (encodeString spec.chart)
    (Nat.pair (encodeString spec.releaseName)
      (Nat.pair (encodeString spec.releaseVersion) (encodeEntries spec.values)))

def natToKey (n : Nat) : String := String.mk (List.replicate n 'h')

/-- Modelled from the spec: `dump.ForHash` (k8s.io/apimachinery, external),
the "stable structural hash" of §4.3 — a deterministic string-valued hash of
the complete spec in which every structural difference yields a different
key.  The model realises exactly that contract: an injective encoding of the
spec into a string. -/
def dumpForHash (spec : ChartSpec) : String := natToKey (encodeSpec spec)

/-- Fast cache key strategy (`FastCacheKeyFunc`, helm_cache.go:32).  The Go
function takes `key any` and returns "" for values that are not a
`ChartSpec`; only the `ChartSpec` arm is modelled. -/
def FastCacheKeyFunc (spec : ChartSpec) : String :=
  spec.chart ++ ":" ++ spec.releaseName ++ ":" ++ spec.releaseVersion

/-- Full/default cache key strategy (`DefaultCacheKey`, helm_cache.go second
listing): reflection-based hash of all chart specification fields via
`dump.ForHash`. -/
def DefaultCacheKey : ChartSpec → String := fun spec => dumpForHash spec

/-- Fast strategy of the second helm_cache.go listing (`FastCacheKey`):
chart metadata only, values ignored. -/
def FastCacheKey : ChartSpec → String :=
  fun spec => spec.chart ++ ":" ++ spec.releaseName ++ ":" ++ spec.releaseVersion

/-- Identity-only strategy (`ChartOnlyCacheKey`, helm_cache.go second
listing). -/
def ChartOnlyCacheKey : ChartSpec → String :=
  fun spec =>
    if spec.releaseVersion ≠ "" then spec.chart ++ ":" ++ spec.releaseVersion else spec.chart

/-- Cache configuration (`cache.Options` from k8s-manifest-kit/pkg/util/cache,
external): an optional key-derivation function and a TTL. -/
structure CacheOptions where
  keyFunc : Option (ChartSpec → String) := none
  ttl : Int := 0

/-- Modelled from the spec: the render cache (`cache.NewRenderCache` from
k8s-manifest-kit/pkg/util/cache, external) — a key-addressed store of
rendered object lists.  TTL expiry state is not modelled because no claim
exercises it; `sync` (the lazy expiry sweep) therefore leaves the entries
unchanged. -/
structure RenderCache where
  keyFunc : ChartSpec → String
  entries : List (String × List Obj)

def RenderCache.sync (c : RenderCache) : RenderCache := c

def RenderCache.get (c : RenderCache) (spec : ChartSpec) : Option (List Obj) :=
  lookupAssoc c.entries (c.keyFunc spec)

def RenderCache.set (c : RenderCache) (spec : ChartSpec) (v : List Obj) : RenderCache :=
  { c with entries := setAssoc c.entries (c.keyFunc spec) v }

/-- Modelled from the spec: `cache.DefaultKeyFunc` of the external cache
package, the default key derivation injected by `newCache` — the full
structural-hash strategy. -/
def cacheDefaultKeyFunc : ChartSpec → String := dumpForHash

/-- Cache construction with the Helm-specific default key function
(`newCache`, helm_cache.go:41): nil options mean caching is disabled and no
cache component is instantiated at all. -/
def newCache (opts : Option CacheOptions) : Option RenderCache :=
  match opts with
  | none => none
  | some co => some { keyFunc := co.keyFunc.getD cacheDefaultKeyFunc, entries := [] }

/-! ### Renderer (`pkg/helm.go`, `pkg/helm_option.go`) -/

/-- Renderer configuration (`RendererOptions`, helm_option.go:15).  Filters
and transformers are the injected collaborator functions; `settings` carries
no claim-relevant state and is omitted. -/
structure RendererOptions where
  filters : List (Obj → Bool) := []
  transformers : List (Obj → Except GoErr Obj) := []
  cacheOptions : Option CacheOptions := none
  sourceAnnotations : Bool := false
  lintMode : Bool := false
  strict : Bool := false

/-- The Helm renderer (`Renderer`, helm.go:69). -/
structure Renderer where
  sources : List sourceHolder
  opts : RendererOptions
  cache : Option RenderCache

/-- First validation failure over the wrapped sources, in order — the
construction loop of `New` (helm.go:95). -/
def firstValidationError : List sourceHolder → Option GoErr
  | [] => none
  | h :: rest =>
    match h.Validate with
    | some e => some e
    | none => firstValidationError rest

/-- Renderer construction (`New`, helm.go:78): wrap every source in a
holder, validate each in order, abort on the first invalid descriptor, and
instantiate the cache from the configured options. -/
def New (inputs : List Source) (rendererOpts : RendererOptions) : Except GoErr Renderer :=
  match firstValidationError (inputs.map fun s => { source := s }) with
  | some e => .error e
  | none =>
    .ok { sources := inputs.map fun s => { source := s }, opts := rendererOpts,
          cache := newCache rendererOpts.cacheOptions }

/-- Source-tracking annotations (`addSourceAnnotations`,
helm_support.go:213). -/
def addSourceAnnotations (opts : RendererOptions) (objects : List Obj)
    (chartPath fileName : String) : List Obj :=
  if !opts.sourceAnnotations then objects
  else
    objects.map fun o =>
      { o with
        annotationMap :=
          setAssoc
            (setAssoc (setAssoc o.annotationMap AnnotationSourceType rendererType)
              AnnotationSourcePath chartPath)
            AnnotationSourceFile fileName }

/-- CRD extraction (`processCRDs`, helm_support.go:238), iterating the list
returned by `chart.CRDObjects()`. -/
def processCRDs (opts : RendererOptions) (co : Collaborators) (h : sourceHolder) :
    List CRDFile → List Ev × Except GoErr (List Obj)
  | [] => ([], .ok [])
  | crd :: rest =>
    match co.decodeYAML crd.data with
    | .error e => ([.decodeFile crd.name], .error (.wrap ("failed to decode CRD " ++ crd.name) e))
    | .ok objects =>
      let (evs, res) := processCRDs opts co h rest
      (.decodeFile crd.name :: evs,
        res.map fun tail => addSourceAnnotations opts objects h.source.chart crd.name ++ tail)

/-- Go `strings.HasSuffix` on the character lists of the strings. -/
def endsWithStr (s sfx : String) : Bool :=
  s.data.reverse.take sfx.data.length = sfx.data.reverse

/-- The YAML-output filter of `processRenderedTemplates`
(helm_support.go:266). -/
def hasYamlSuffix (k : String) : Bool :=
  endsWithStr k ".yaml" || endsWithStr k ".yml"

/-- Rendered-template decoding (`processRenderedTemplates`,
helm_support.go:259): iterate the rendered files in the given order, skip
every output whose name is not a `.yaml`/`.yml` file, decode the rest and
annotate. -/
def processRenderedTemplates (opts : RendererOptions) (co : Collaborators) (h : sourceHolder) :
    List (String × String) → List Ev × Except GoErr (List Obj)
  | [] => ([], .ok [])
  | (k, v) :: rest =>
    if !hasYamlSuffix k then processRenderedTemplates opts co h rest
    else
      match co.decodeYAML v with
      | .error e => ([.decodeFile k], .error (.wrap ("failed to decode " ++ k) e))
      | .ok objects =>
        let (evs, res) := processRenderedTemplates opts co h rest
        (.decodeFile k :: evs,
          res.map fun tail => addSourceAnnotations opts objects h.source.chart k ++ tail)

/-- Per-source value resolution (`Renderer.values`, helm.go:159): start from
an empty source-values map, consult the dynamic values provider when one is
configured (a nil result is kept as the empty map), and deep-merge with the
render-time values taking precedence.  A nil render-time map is the empty
`VMap`. -/
def Renderer.values (holder : sourceHolder) (renderTimeValues : VMap) : Except GoErr VMap :=
  match holder.source.values with
  | none => .ok (DeepMerge [] renderTimeValues)
  | some (.error e) =>
    .error (.wrapSrc "failed to get values" holder.source.chart holder.source.releaseName e)
  | some (.ok v) => .ok (DeepMerge (v.getD []) renderTimeValues)

/-- Values preparation (`Renderer.processValues`, helm.go:188): resolve
values, process dependencies when requested, and hand the result to
`chartutil.ToRenderValues` together with the release options. -/
def Renderer.processValues (co : Collaborators) (holder : sourceHolder) (chart : Chart)
    (renderTimeValues : VMap) : Except GoErr VMap :=
  match Renderer.values holder renderTimeValues with
  | .error e =>
    .error (.wrapSrc "failed to get values" holder.source.chart holder.source.releaseName e)
  | .ok values =>
    match (if holder.source.processDependencies then co.processDeps chart values else none) with
    | some e =>
      .error
        (.wrapSrc "failed to process dependencies" holder.source.chart holder.source.releaseName e)
    | none =>
      match co.toRenderValues chart values holder.source.releaseName with
      | .error e =>
        .error
          (.wrapSrc "failed to prepare render values" holder.source.chart
            holder.source.releaseName e)
      | .ok renderValues => .ok renderValues

/-- The post-cache-miss tail of `processSingle` (helm.go:277): the
cancellation checkpoint immediately before the render-collaborator
invocation, the render, CRD extraction and template decoding. -/
def renderAndDecode (opts : RendererOptions) (co : Collaborators) (ctx : Ctx)
    (h : sourceHolder) (chart : Chart) (renderValues : VMap) :
    List Ev × Except GoErr (List Obj) :=
  match ctx with
  | some cause => ([], .error (.wrap "context cancelled before render" (.ctxErr cause)))
  | none =>
    match co.renderChart chart renderValues with
    | .error e =>
      ([.renderStarted],
        .error (.wrapSrc "failed to render chart" h.source.chart h.source.releaseName e))
    | .ok files =>
      match processCRDs opts co h chart.crds with
      | (evs₁, .error e) => (.renderStarted :: evs₁, .error e)
      | (evs₁, .ok crdObjects) =>
        match processRenderedTemplates opts co h files with
        | (evs₂, .error e) => (.renderStarted :: evs₁ ++ evs₂, .error e)
        | (evs₂, .ok templateObjects) =>
          (.renderStarted :: evs₁ ++ evs₂, .ok (crdObjects ++ templateObjects))

/-- Per-source rendering (`Renderer.processSingle`, helm.go:242): load the
chart lazily, prepare render values, consult the cache when one is
configured, and otherwise render, decode (CRDs first) and store.  Returns
the updated holder, the updated cache, the events and the result. -/
def Renderer.processSingle (r : Renderer) (co : Collaborators) (ctx : Ctx) (h : sourceHolder)
    (renderTimeValues : VMap) :
    sourceHolder × Option RenderCache × List Ev × Except GoErr (List Obj) :=
  match sourceHolder.LoadChart co ctx h with
  | (h₁, evs, .error e) => (h₁, r.cache, evs, .error e)
  | (h₁, evs, .ok chart) =>
    match Renderer.processValues co h₁ chart renderTimeValues with
    | .error e => (h₁, r.cache, evs, .error e)
    | .ok renderValues =>
      let spec : ChartSpec :=
        { chart := h₁.source.chart, releaseName := h₁.source.releaseName,
          releaseVersion := h₁.source.releaseVersion, values := renderValues }
      match r.cache with
      | none =>
        let (evs₂, res) := renderAndDecode r.opts co ctx h₁ chart renderValues
        (h₁, none, evs ++ evs₂, res)
      | some c =>
        let c₁ := RenderCache.sync c
        match RenderCache.get c₁ spec with
        | some cached => (h₁, some c₁, evs ++ [.cacheLookup], .ok cached)
        | none =>
          match renderAndDecode r.opts co ctx h₁ chart renderValues with
          | (evs₂, .error e) => (h₁, some c₁, evs ++ .cacheLookup :: evs₂, .error e)
          | (evs₂, .ok result) =>
            (h₁, some (RenderCache.set c₁ spec result),
              evs ++ .cacheLookup :: evs₂ ++ [.cacheStore], .ok result)

/-- Modelled from the spec: `pipeline.Apply` (k8s-manifest-kit/engine,
external) — apply one transformer chain to one object. -/
def applyChain : List (Obj → Except GoErr Obj) → Obj → Except GoErr Obj
  | [], o => .ok o
  | t :: ts, o =>
    match t o with
    | .error e => .error e
    | .ok o₂ => applyChain ts o₂

/-- Modelled from the spec: transformer application over a pruned list with
error abort. -/
def applyTransformers (ts : List (Obj → Except GoErr Obj)) : List Obj → Except GoErr (List Obj)
  | [] => .ok []
  | o :: rest =>
    match applyChain ts o with
    | .error e => .error e
    | .ok o₂ => (applyTransformers ts rest).map (o₂ :: ·)

/-- Modelled from the spec: `pipeline.Apply` — filters prune the result
sequence (an object survives when every filter matches it), then the
transformers run with error abort. -/
def pipelineApply (filters : List (Obj → Bool)) (ts : List (Obj → Except GoErr Obj))
    (objects : List Obj) : Except GoErr (List Obj) :=
  applyTransformers ts (objects.filter fun o => filters.all fun f => f o)

/-- The per-source loop of `Process` (helm.go:126), threading the cache
state: each source is rendered, filtered/transformed, and appended; the
first failure aborts the whole call with the failing source identity
wrapped around the cause, and no objects are returned. -/
def processLoop (r : Renderer) (co : Collaborators) (ctx : Ctx) (renderTimeValues : VMap) :
    List sourceHolder → Option RenderCache → List Ev × Except GoErr (List Obj)
  | [], _ => ([], .ok [])
  | h :: rest, cache =>
    match Renderer.processSingle { r with cache := cache } co ctx h renderTimeValues with
    | (_, _, evs, .error e) =>
      (evs,
        .error (.wrapSrc "error rendering helm chart" h.source.chart h.source.releaseName e))
    | (_, cache₁, evs, .ok objects) =>
      match pipelineApply r.opts.filters r.opts.transformers objects with
      | .error e =>
        (evs,
          .error
            (.wrapSrc "error applying filters/transformers to helm chart" h.source.chart
              h.source.releaseName e))
      | .ok transformed =>
        let (evs₂, res) := processLoop r co ctx renderTimeValues rest cache₁
        (evs ++ evs₂, res.map fun tail => transformed ++ tail)

/-- Multi-source rendering (`Renderer.Process`, helm.go:123). -/
def Renderer.Process (r : Renderer) (co : Collaborators) (ctx : Ctx) (renderTimeValues : VMap) :
    List Ev × Except GoErr (List Obj) :=
  processLoop r co ctx renderTimeValues r.sources r.cache

/-- Renderer identity (`Renderer.Name`, helm.go:155). -/
def Renderer.Name (_ : Renderer) : String := rendererType

/-- Sequentialised view of K concurrent `LoadChart` calls on one holder: the
holder mutex serialises the critical sections, so a set of K concurrent
calls is modelled by running the K atomic steps in the order in which the
calls enter their critical sections. -/
def runLoads (co : Collaborators) (ctx : Ctx) :
    Nat → sourceHolder → sourceHolder × List Ev × List (Except GoErr Chart)
  | 0, h => (h, [], [])
  | k + 1, h =>
    let (h₁, evs, r₁) := sourceHolder.LoadChart co ctx h
    let (h₂, evs₂, rs) := runLoads co ctx k h₁
    (h₂, evs ++ evs₂, r₁ :: rs)


/-! ### Concrete fixtures used to evaluate the model on closed inputs -/

/-- Discriminator for the error arm of an `Except`, modelling the Go
convention of returning `(nil, err)`. -/
def exceptIsError {ε α : Type} : Except ε α → Bool
  | .error _ => true
  | .ok _ => false

/-- A release name of exactly 53 valid characters. -/
def name53 : String := String.mk (List.replicate 53 'a')

/-- A release name of 54 valid characters. -/
def name54 : String := String.mk (List.replicate 54 'a')

def objA : Obj := { content := "A" }

def objB : Obj := { content := "B" }

def crd0 : CRDFile := { name := "crds/c0.yaml", data := "C0" }

def chart0 : Chart := { id := 7, crds := [crd0] }

/-- Deterministic collaborator bundle for closed evaluations: charts named
"missing" fail to locate, the path "/charts/badload" fails to load, the text
"boom" fails to decode, and everything else succeeds structurally. -/
def co0 : Collaborators :=
  { locateChart := fun _ chartRef =>
      if chartRef = "missing" then .error (.base "no such chart")
      else .ok ("/charts/" ++ chartRef)
    loadChart := fun p =>
      if p = "/charts/badload" then .error (.base "malformed archive") else .ok chart0
    renderChart := fun _ _ => .ok [("templates/a.yaml", "A"), ("NOTES.txt", "boom")]
    decodeYAML := fun s =>
      if s = "boom" then .error (.base "decode failure") else .ok [{ content := s }]
    toRenderValues := fun _ values _ => .ok values
    processDeps := fun _ _ => none }

def src0 : Source := { chart := "app", releaseName := "r0" }

def holder0 : sourceHolder := { source := src0 }

def holderLoaded : sourceHolder := { source := src0, chart := some chart0 }

def srcMissing : Source := { chart := "missing", releaseName := "bad-src" }

def holderMissing : sourceHolder := { source := srcMissing }

def renderer0 : Renderer := { sources := [holder0], opts := {}, cache := none }

def rendererMulti : Renderer :=
  { sources := [holderMissing, holder0], opts := {}, cache := none }

/-- An empty render cache using the fast key strategy (every lookup misses). -/
def cache0 : RenderCache := { keyFunc := FastCacheKeyFunc, entries := [] }

def rendererCached : Renderer := { sources := [holder0], opts := {}, cache := some cache0 }

/-! ### Association-list and merge lemmas -/

theorem lookupAssoc_setAssoc_self {α : Type} (m : List (String × α)) (k : String) (v : α) :
    lookupAssoc (setAssoc m k v) k = some v := by
  induction m with
  | nil => simp [setAssoc, lookupAssoc]
  | cons hd tl ih =>
    obtain ⟨k₁, v₁⟩ := hd
    by_cases h : k₁ = k <;> simp [setAssoc, lookupAssoc, h, ih]

theorem lookupAssoc_setAssoc_ne {α : Type} (m : List (String × α)) (k k₂ : String) (v : α)
    (h : k₂ ≠ k) : lookupAssoc (setAssoc m k₂ v) k = lookupAssoc m k := by
  induction m with
  | nil => simp [setAssoc, lookupAssoc, h]
  | cons hd tl ih =>
    obtain ⟨k₁, v₁⟩ := hd
    by_cases h₁ : k₁ = k₂
    · subst h₁
      simp [setAssoc, lookupAssoc, h]
    · simp [setAssoc, lookupAssoc, h₁, ih]

theorem lookupAssoc_mergeEntry_ne (b : VMap) (k k₂ : String) (v : Value) (h : k₂ ≠ k) :
    lookupAssoc (mergeEntry b k₂ v) k = lookupAssoc b k := by
  rw [mergeEntry.eq_def]
  split <;> exact lookupAssoc_setAssoc_ne _ _ _ _ h

theorem lookupAssoc_mergeEntry_self (b : VMap) (k : String) (v : Value) :
    lookupAssoc (mergeEntry b k v) k = some (mergeVal (lookupAssoc b k) v) := by
  rw [mergeEntry.eq_def]
  cases hb : lookupAssoc b k with
  | none => cases v <;> simp [lookupAssoc_setAssoc_self, mergeVal]
  | some w => cases w <;> cases v <;> simp [lookupAssoc_setAssoc_self, mergeVal]

theorem lookupAssoc_eq_none_iff {α : Type} (m : List (String × α)) (k : String) :
    lookupAssoc m k = none ↔ k ∉ m.map Prod.fst := by
  induction m with
  | nil => simp [lookupAssoc]
  | cons hd tl ih =>
    obtain ⟨k₁, v₁⟩ := hd
    by_cases h : k₁ = k
    · subst h; simp [lookupAssoc]
    · simp [lookupAssoc, h, ih, Ne.symm h]

/-- Key-wise characterisation of `DeepMerge` (for override maps without
duplicate keys, as every Go map is): a key found only in the base is kept, a
key found only in the override is added, and a key present on both sides is
merged by `mergeVal`. -/
theorem lookupAssoc_DeepMerge (ov : VMap) (b : VMap) (k : String)
    (hnd : (ov.map Prod.fst).Nodup) :
    lookupAssoc (DeepMerge b ov) k =
      match lookupAssoc ov k with
      | none => lookupAssoc b k
      | some w => some (mergeVal (lookupAssoc b k) w) := by
  induction ov generalizing b with
  | nil => rw [DeepMerge]; simp [lookupAssoc]
  | cons hd tl ih =>
    obtain ⟨k₁, w₁⟩ := hd
    simp only [List.map_cons, List.nodup_cons] at hnd
    rw [DeepMerge]
    by_cases h : k₁ = k
    · subst h
      have htl : lookupAssoc tl k₁ = none := (lookupAssoc_eq_none_iff tl k₁).mpr hnd.1
      rw [ih _ hnd.2]
      simp only [htl, lookupAssoc_mergeEntry_self]
      simp [lookupAssoc]
    · rw [ih _ hnd.2]
      simp only [lookupAssoc_mergeEntry_ne _ _ _ _ h]
      simp [lookupAssoc, h]

theorem DeepMerge_nil (b : VMap) : DeepMerge b [] = b := by rw [DeepMerge]

/-! ### Injectivity of the structural hash encoding -/

theorem encodeChar_inj {c d : Char} (h : encodeChar c = encodeChar d) : c = d := by
  cases c; cases d
  simp only [encodeChar, Char.toNat] at h
  congr 1
  exact UInt32.ext h

theorem encodeCharList_inj : ∀ xs ys : List Char, encodeCharList xs = encodeCharList ys → xs = ys := by
  intro xs
  induction xs with
  | nil =>
    intro ys h
    cases ys with
    | nil => rfl
    | cons y ys => simp only [encodeCharList] at h; omega
  | cons x xs ih =>
    intro ys h
    cases ys with
    | nil => simp only [encodeCharList] at h; omega
    | cons y ys =>
      simp only [encodeCharList] at h
      obtain ⟨h₁, h₂⟩ := Nat.pair_eq_pair.mp (Nat.add_right_cancel h)
      rw [encodeChar_inj h₁, ih ys h₂]

theorem encodeString_inj {s t : String} (h : encodeString s = encodeString t) : s = t := by
  cases s; cases t
  simp only [encodeString] at h
  exact congrArg String.mk (encodeCharList_inj _ _ h)

theorem encodeInt_inj {n m : Int} (h : encodeInt n = encodeInt m) : n = m := by
  simp only [encodeInt] at h
  obtain ⟨h₁, h₂⟩ := Nat.pair_eq_pair.mp h
  split_ifs at h₁ <;> omega

theorem encode_inj_fuel : ∀ fuel : Nat,
    (∀ v w : Value, sizeOf v ≤ fuel → encodeValue v = encodeValue w → v = w) ∧
    (∀ xs ys : List Value, sizeOf xs ≤ fuel → encodeValueList xs = encodeValueList ys → xs = ys) ∧
    (∀ m₁ m₂ : List (String × Value), sizeOf m₁ ≤ fuel →
      encodeEntries m₁ = encodeEntries m₂ → m₁ = m₂) := by
  intro fuel
  induction fuel with
  | zero =>
    refine ⟨fun v w hs _ => ?_, fun xs ys hs _ => ?_, fun m₁ m₂ hs _ => ?_⟩
    · exact absurd hs (by cases v <;> simp)
    · exact absurd hs (by cases xs <;> simp)
    · exact absurd hs (by cases m₁ <;> simp)
  | succ n ih =>
    obtain ⟨ihV, ihL, ihE⟩ := ih
    refine ⟨?_, ?_, ?_⟩
    · intro v w hs he
      cases v <;> cases w <;>
        simp only [encodeValue] at he <;>
        obtain ⟨h₁, h₂⟩ := Nat.pair_eq_pair.mp he <;>
        first
          | exact absurd h₁ (by decide)
          | exact congrArg Value.str (encodeString_inj h₂)
          | exact congrArg Value.num (encodeInt_inj h₂)
          | (rename_i xs ys
             exact congrArg Value.arr (ihL xs ys (by simp at hs; omega) h₂))
          | (rename_i m₁ m₂
             exact congrArg Value.obj (ihE m₁ m₂ (by simp at hs; omega) h₂))
          | (rename_i b₁ b₂
             cases b₁ <;> cases b₂ <;> simp_all)
    · intro xs ys hs he
      cases xs with
      | nil =>
        cases ys with
        | nil => rfl
        | cons y ys => simp only [encodeValueList] at he; omega
      | cons x xs =>
        cases ys with
        | nil => simp only [encodeValueList] at he; omega
        | cons y ys =>
          simp only [encodeValueList] at he
          obtain ⟨h₁, h₂⟩ := Nat.pair_eq_pair.mp (Nat.add_right_cancel he)
          have hsx : sizeOf x ≤ n := by simp at hs; omega
          have hsxs : sizeOf xs ≤ n := by simp at hs; omega
          rw [ihV x y hsx h₁, ihL xs ys hsxs h₂]
    · intro m₁ m₂ hs he
      cases m₁ with
      | nil =>
        cases m₂ with
        | nil => rfl
        | cons kv₂ rest₂ =>
          obtain ⟨k₂, v₂⟩ := kv₂
          simp only [encodeEntries] at he
          omega
      | cons kv₁ rest₁ =>
        obtain ⟨k₁, v₁⟩ := kv₁
        cases m₂ with
        | nil => simp only [encodeEntries] at he; omega
        | cons kv₂ rest₂ =>
          obtain ⟨k₂, v₂⟩ := kv₂
          simp only [encodeEntries] at he
          obtain ⟨h₁, h₂⟩ := Nat.pair_eq_pair.mp (Nat.add_right_cancel he)
          obtain ⟨h₃, h₄⟩ := Nat.pair_eq_pair.mp h₂
          have hsv : sizeOf v₁ ≤ n := by simp at hs; omega
          have hsr : sizeOf rest₁ ≤ n := by simp at hs; omega
          rw [encodeString_inj h₁, ihV v₁ v₂ hsv h₃, ihE rest₁ rest₂ hsr h₄]

theorem encodeEntries_injective (m₁ m₂ : List (String × Value))
    (h : encodeEntries m₁ = encodeEntries m₂) : m₁ = m₂ :=
  (encode_inj_fuel (sizeOf m₁)).2.2 m₁ m₂ (le_refl _) h

theorem natToKey_inj {n m : Nat} (h : natToKey n = natToKey m) : n = m := by
  have hl := congrArg (fun s => s.data.length) h
  simpa [natToKey] using hl

theorem dumpForHash_inj {s₁ s₂ : ChartSpec} (h : dumpForHash s₁ = dumpForHash s₂) : s₁ = s₂ := by
  obtain ⟨c₁, rn₁, rv₁, vs₁⟩ := s₁
  obtain ⟨c₂, rn₂, rv₂, vs₂⟩ := s₂
  simp only [dumpForHash, encodeSpec] at h
  have h₀ := natToKey_inj h
  obtain ⟨h₁, h₂⟩ := Nat.pair_eq_pair.mp h₀
  obtain ⟨h₃, h₄⟩ := Nat.pair_eq_pair.mp h₂
  obtain ⟨h₅, h₆⟩ := Nat.pair_eq_pair.mp h₄
  rw [ChartSpec.mk.injEq]
  exact ⟨encodeString_inj h₁, encodeString_inj h₃, encodeString_inj h₅,
    encodeEntries_injective _ _ h₆⟩

/-! ### Validation lemmas -/

theorem Validate_ne_none_iff (h : sourceHolder) :
    h.Validate ≠ none ↔
      ((trimSpace h.source.chart).data = [] ∨
       (trimSpace h.source.releaseName).data = [] ∨
       (trimSpace h.source.releaseName).data.length > maxReleaseNameLength ∨
       releaseNameMatches (trimSpace h.source.releaseName) = false) := by
  unfold sourceHolder.Validate
  split_ifs with h₁ h₂ h₃ h₄
  · exact iff_of_true (by simp) (Or.inl (List.eq_nil_of_length_eq_zero h₁))
  · exact iff_of_true (by simp) (Or.inr (Or.inl (List.eq_nil_of_length_eq_zero h₂)))
  · exact iff_of_true (by simp) (Or.inr (Or.inr (Or.inl h₃)))
  · refine iff_of_false (by simp) ?_
    rintro (hc | hr | hl | hm)
    · exact h₁ (by rw [hc]; rfl)
    · exact h₂ (by rw [hr]; rfl)
    · exact h₃ hl
    · rw [hm] at h₄; simp at h₄
  · refine iff_of_true (by simp) (Or.inr (Or.inr (Or.inr ?_)))
    cases hmv : releaseNameMatches (trimSpace h.source.releaseName) with
    | false => rfl
    | true => rw [hmv] at h₄; simp at h₄

theorem firstValidationError_eq_none_iff (hs : List sourceHolder) :
    firstValidationError hs = none ↔ ∀ h ∈ hs, h.Validate = none := by
  induction hs with
  | nil => simp [firstValidationError]
  | cons hd tl ih => cases hv : hd.Validate <;> simp [firstValidationError, hv, ih]

theorem New_error_iff (inputs : List Source) (opts : RendererOptions) :
    exceptIsError (New inputs opts) = true ↔
      ∃ s ∈ inputs,
        (trimSpace s.chart).data = [] ∨
        (trimSpace s.releaseName).data = [] ∨
        (trimSpace s.releaseName).data.length > maxReleaseNameLength ∨
        releaseNameMatches (trimSpace s.releaseName) = false := by
  unfold New
  cases hfv : firstValidationError (inputs.map fun s => { source := s }) with
  | some e =>
    refine iff_of_true rfl ?_
    have hne : firstValidationError (inputs.map fun s => ({ source := s } : sourceHolder)) ≠
        none := by simp [hfv]
    rw [Ne, firstValidationError_eq_none_iff] at hne
    push_neg at hne
    obtain ⟨h, hmem, hv⟩ := hne
    obtain ⟨s, hsmem, rfl⟩ := List.mem_map.mp hmem
    exact ⟨s, hsmem, (Validate_ne_none_iff _).mp hv⟩
  | none =>
    refine iff_of_false (by simp [exceptIsError]) ?_
    rw [firstValidationError_eq_none_iff] at hfv
    intro hcon
    obtain ⟨s, hsmem, hdisj⟩ := hcon
    exact absurd hdisj
      ((Validate_ne_none_iff ({ source := s } : sourceHolder)).not.mp
        (by simp [hfv _ (List.mem_map_of_mem _ hsmem)]))

/-! ### Pipeline lemmas -/

theorem LoadChart_of_loaded (h : sourceHolder) (c : Chart) (h₀ : h.chart = some c)
    (co : Collaborators) (ctx : Ctx) : h.LoadChart co ctx = (h, [], .ok c) := by
  simp [sourceHolder.LoadChart, h₀]

theorem runLoads_of_loaded (co : Collaborators) (ctx : Ctx) (c : Chart) :
    ∀ (k : Nat) (h : sourceHolder), h.chart = some c →
      runLoads co ctx k h = (h, [], List.replicate k (.ok c)) := by
  intro k
  induction k with
  | zero => intro h h₀; simp [runLoads]
  | succ n ih =>
    intro h h₀
    simp [runLoads, LoadChart_of_loaded h c h₀, ih h h₀, List.replicate_succ]

theorem LoadChart_events (co : Collaborators) (ctx : Ctx) (h : sourceHolder) :
    (h.LoadChart co ctx).2.1 = [] ∨ (h.LoadChart co ctx).2.1 = [.loadStarted] := by
  cases h₀ : h.chart with
  | some c => simp [sourceHolder.LoadChart, h₀]
  | none =>
    cases ctx with
    | some cause => simp [sourceHolder.LoadChart, h₀]
    | none =>
      cases hopt : createChartPathOptions none h.source with
      | error e => simp [sourceHolder.LoadChart, h₀, hopt]
      | ok opt =>
        cases hloc : co.locateChart opt h.source.chart with
        | error e => simp [sourceHolder.LoadChart, h₀, hopt, hloc]
        | ok path =>
          cases hload : co.loadChart path with
          | error e => simp [sourceHolder.LoadChart, h₀, hopt, hloc, hload]
          | ok c => simp [sourceHolder.LoadChart, h₀, hopt, hloc, hload]

theorem processCRDs_cons_err (opts : RendererOptions) (co : Collaborators) (h : sourceHolder)
    (crd : CRDFile) (rest : List CRDFile) (e : GoErr) (hd : co.decodeYAML crd.data = .error e) :
    processCRDs opts co h (crd :: rest) =
      ([.decodeFile crd.name], .error (.wrap ("failed to decode CRD " ++ crd.name) e)) := by
  simp [processCRDs, hd]

theorem processCRDs_cons_ok (opts : RendererOptions) (co : Collaborators) (h : sourceHolder)
    (crd : CRDFile) (rest : List CRDFile) (objects : List Obj)
    (hd : co.decodeYAML crd.data = .ok objects) :
    processCRDs opts co h (crd :: rest) =
      (Ev.decodeFile crd.name :: (processCRDs opts co h rest).1,
        (processCRDs opts co h rest).2.map
          fun tail => addSourceAnnotations opts objects h.source.chart crd.name ++ tail) := by
  rcases hpt : processCRDs opts co h rest with ⟨evs, res⟩
  simp [processCRDs, hd, hpt]

theorem processRT_cons_skip (opts : RendererOptions) (co : Collaborators) (h : sourceHolder)
    (k v : String) (tl : List (String × String)) (hk : hasYamlSuffix k = false) :
    processRenderedTemplates opts co h ((k, v) :: tl) = processRenderedTemplates opts co h tl := by
  simp [processRenderedTemplates, hk]

theorem processRT_cons_yaml_err (opts : RendererOptions) (co : Collaborators) (h : sourceHolder)
    (k v : String) (tl : List (String × String)) (e : GoErr)
    (hk : hasYamlSuffix k = true) (hd : co.decodeYAML v = .error e) :
    processRenderedTemplates opts co h ((k, v) :: tl) =
      ([.decodeFile k], .error (.wrap ("failed to decode " ++ k) e)) := by
  simp [processRenderedTemplates, hk, hd]

theorem processRT_cons_yaml_ok (opts : RendererOptions) (co : Collaborators) (h : sourceHolder)
    (k v : String) (tl : List (String × String)) (objects : List Obj)
    (hk : hasYamlSuffix k = true) (hd : co.decodeYAML v = .ok objects) :
    processRenderedTemplates opts co h ((k, v) :: tl) =
      (Ev.decodeFile k :: (processRenderedTemplates opts co h tl).1,
        (processRenderedTemplates opts co h tl).2.map
          fun tail => addSourceAnnotations opts objects h.source.chart k ++ tail) := by
  rcases hpt : processRenderedTemplates opts co h tl with ⟨evs, res⟩
  simp [processRenderedTemplates, hk, hd, hpt]

theorem processCRDs_events (opts : RendererOptions) (co : Collaborators) (h : sourceHolder) :
    ∀ (crds : List CRDFile) (ev : Ev), ev ∈ (processCRDs opts co h crds).1 →
      ∃ n, ev = Ev.decodeFile n := by
  intro crds
  induction crds with
  | nil => simp [processCRDs]
  | cons crd rest ih =>
    intro ev hmem
    cases hd : co.decodeYAML crd.data with
    | error e =>
      rw [processCRDs_cons_err opts co h crd rest e hd] at hmem
      simp only [List.mem_singleton] at hmem
      exact ⟨crd.name, hmem⟩
    | ok objects =>
      rw [processCRDs_cons_ok opts co h crd rest objects hd] at hmem
      simp only [List.mem_cons] at hmem
      cases hmem with
      | inl heq => exact ⟨crd.name, heq⟩
      | inr hmem => exact ih ev hmem

theorem processRenderedTemplates_events (opts : RendererOptions) (co : Collaborators)
    (h : sourceHolder) :
    ∀ (files : List (String × String)) (ev : Ev),
      ev ∈ (processRenderedTemplates opts co h files).1 → ∃ n, ev = Ev.decodeFile n := by
  intro files
  induction files with
  | nil => simp [processRenderedTemplates]
  | cons hd tl ih =>
    obtain ⟨k, v⟩ := hd
    intro ev hmem
    cases hk : hasYamlSuffix k with
    | false =>
      rw [processRT_cons_skip opts co h k v tl hk] at hmem
      exact ih ev hmem
    | true =>
      cases hd₂ : co.decodeYAML v with
      | error e =>
        rw [processRT_cons_yaml_err opts co h k v tl e hk hd₂] at hmem
        simp only [List.mem_singleton] at hmem
        exact ⟨k, hmem⟩
      | ok objects =>
        rw [processRT_cons_yaml_ok opts co h k v tl objects hk hd₂] at hmem
        simp only [List.mem_cons] at hmem
        cases hmem with
        | inl heq => exact ⟨k, heq⟩
        | inr hmem => exact ih ev hmem

theorem renderAndDecode_events (opts : RendererOptions) (co : Collaborators) (ctx : Ctx)
    (h : sourceHolder) (chart : Chart) (rv : VMap) (ev : Ev)
    (hmem : ev ∈ (renderAndDecode opts co ctx h chart rv).1) :
    ev = Ev.renderStarted ∨ ∃ n, ev = Ev.decodeFile n := by
  cases ctx with
  | some cause => simp [renderAndDecode] at hmem
  | none =>
    cases hre : co.renderChart chart rv with
    | error e =>
      simp [renderAndDecode, hre] at hmem
      exact Or.inl hmem
    | ok files =>
      rcases hcrd : processCRDs opts co h chart.crds with ⟨evs₁, res₁⟩
      have hev₁ : ∀ e₂ ∈ evs₁, ∃ n, e₂ = Ev.decodeFile n := fun e₂ he₂ =>
        processCRDs_events opts co h chart.crds e₂ (by rw [hcrd]; exact he₂)
      cases res₁ with
      | error e =>
        simp only [renderAndDecode, hre, hcrd, List.mem_cons] at hmem
        cases hmem with
        | inl heq => exact Or.inl heq
        | inr hmem => exact Or.inr (hev₁ ev hmem)
      | ok crdObjects =>
        rcases hpt : processRenderedTemplates opts co h files with ⟨evs₂, res₂⟩
        have hev₂ : ∀ e₂ ∈ evs₂, ∃ n, e₂ = Ev.decodeFile n := fun e₂ he₂ =>
          processRenderedTemplates_events opts co h files e₂ (by rw [hpt]; exact he₂)
        cases res₂ with
        | error e =>
          simp only [renderAndDecode, hre, hcrd, hpt, List.mem_cons, List.mem_append] at hmem
          cases hmem with
          | inl hmem =>
            cases hmem with
            | inl heq => exact Or.inl heq
            | inr hmem => exact Or.inr (hev₁ ev hmem)
          | inr hmem => exact Or.inr (hev₂ ev hmem)
        | ok templateObjects =>
          simp only [renderAndDecode, hre, hcrd, hpt, List.mem_cons, List.mem_append] at hmem
          cases hmem with
          | inl hmem =>
            cases hmem with
            | inl heq => exact Or.inl heq
            | inr hmem => exact Or.inr (hev₁ ev hmem)
          | inr hmem => exact Or.inr (hev₂ ev hmem)

theorem renderAndDecode_ok_mem (opts : RendererOptions) (co : Collaborators) (ctx : Ctx)
    (h : sourceHolder) (chart : Chart) (rv : VMap) (evs : List Ev) (res : List Obj)
    (heq : renderAndDecode opts co ctx h chart rv = (evs, .ok res)) :
    Ev.renderStarted ∈ evs := by
  cases ctx with
  | some cause => simp [renderAndDecode] at heq
  | none =>
    cases hre : co.renderChart chart rv with
    | error e => simp [renderAndDecode, hre] at heq
    | ok files =>
      rcases hcrd : processCRDs opts co h chart.crds with ⟨evs₁, res₁⟩
      cases res₁ with
      | error e => simp [renderAndDecode, hre, hcrd] at heq
      | ok crdObjects =>
        rcases hpt : processRenderedTemplates opts co h files with ⟨evs₂, res₂⟩
        cases res₂ with
        | error e => simp [renderAndDecode, hre, hcrd, hpt] at heq
        | ok templateObjects =>
          simp only [renderAndDecode, hre, hcrd, hpt, Prod.mk.injEq] at heq
          rw [← heq.1]
          exact List.mem_cons_self _ _

theorem processLoop_cons_error (r : Renderer) (co : Collaborators) (ctx : Ctx) (rtv : VMap)
    (h : sourceHolder) (rest : List sourceHolder) (cache : Option RenderCache)
    (h₁ : sourceHolder) (cache₁ : Option RenderCache) (evs : List Ev) (e : GoErr)
    (hps : Renderer.processSingle { r with cache := cache } co ctx h rtv =
      (h₁, cache₁, evs, .error e)) :
    processLoop r co ctx rtv (h :: rest) cache =
      (evs,
        .error (.wrapSrc "error rendering helm chart" h.source.chart h.source.releaseName e)) := by
  simp [processLoop, hps]

theorem processLoop_cons_pipeline_error (r : Renderer) (co : Collaborators) (ctx : Ctx)
    (rtv : VMap) (h : sourceHolder) (rest : List sourceHolder) (cache : Option RenderCache)
    (h₁ : sourceHolder) (cache₁ : Option RenderCache) (evs : List Ev) (objects : List Obj)
    (e : GoErr)
    (hps : Renderer.processSingle { r with cache := cache } co ctx h rtv =
      (h₁, cache₁, evs, .ok objects))
    (hpa : pipelineApply r.opts.filters r.opts.transformers objects = .error e) :
    processLoop r co ctx rtv (h :: rest) cache =
      (evs,
        .error (.wrapSrc "error applying filters/transformers to helm chart" h.source.chart
          h.source.releaseName e)) := by
  simp [processLoop, hps, hpa]

theorem processLoop_cons_ok (r : Renderer) (co : Collaborators) (ctx : Ctx) (rtv : VMap)
    (h : sourceHolder) (rest : List sourceHolder) (cache : Option RenderCache)
    (h₁ : sourceHolder) (cache₁ : Option RenderCache) (evs : List Ev) (objects : List Obj)
    (transformed : List Obj)
    (hps : Renderer.processSingle { r with cache := cache } co ctx h rtv =
      (h₁, cache₁, evs, .ok objects))
    (hpa : pipelineApply r.opts.filters r.opts.transformers objects = .ok transformed) :
    processLoop r co ctx rtv (h :: rest) cache =
      (evs ++ (processLoop r co ctx rtv rest cache₁).1,
        (processLoop r co ctx rtv rest cache₁).2.map fun tail => transformed ++ tail) := by
  rcases hrec : processLoop r co ctx rtv rest cache₁ with ⟨evs₂, res⟩
  simp [processLoop, hps, hpa, hrec]

theorem processLoop_error_shape (r : Renderer) (co : Collaborators) (ctx : Ctx) (rtv : VMap) :
    ∀ (hs : List sourceHolder) (cache : Option RenderCache) (evs : List Ev) (e : GoErr),
      processLoop r co ctx rtv hs cache = (evs, .error e) →
      ∃ h ∈ hs, ∃ cause,
        e = .wrapSrc "error rendering helm chart" h.source.chart h.source.releaseName cause ∨
        e = .wrapSrc "error applying filters/transformers to helm chart" h.source.chart
          h.source.releaseName cause := by
  intro hs
  induction hs with
  | nil => intro cache evs e heq; simp [processLoop] at heq
  | cons hd tl ih =>
    intro cache evs e heq
    rcases hps : Renderer.processSingle { r with cache := cache } co ctx hd rtv with
      ⟨h₁, cache₁, evs₁, res₁⟩
    cases res₁ with
    | error e₁ =>
      rw [processLoop_cons_error r co ctx rtv hd tl cache h₁ cache₁ evs₁ e₁ hps] at heq
      injection heq with h₁e h₂e
      injection h₂e with h₃e
      exact ⟨hd, List.mem_cons_self _ _, e₁, Or.inl h₃e.symm⟩
    | ok objects =>
      cases hpa : pipelineApply r.opts.filters r.opts.transformers objects with
      | error e₂ =>
        rw [processLoop_cons_pipeline_error r co ctx rtv hd tl cache h₁ cache₁ evs₁ objects e₂
          hps hpa] at heq
        injection heq with h₁e h₂e
        injection h₂e with h₃e
        exact ⟨hd, List.mem_cons_self _ _, e₂, Or.inr h₃e.symm⟩
      | ok transformed =>
        rw [processLoop_cons_ok r co ctx rtv hd tl cache h₁ cache₁ evs₁ objects transformed
          hps hpa] at heq
        rcases hrec : processLoop r co ctx rtv tl cache₁ with ⟨evs₂, res₂⟩
        rw [hrec] at heq
        cases res₂ with
        | ok os => simp [Except.map] at heq
        | error e₂ =>
          have hsnd : (Except.error e₂ : Except GoErr (List Obj)) = .error e := by
            have hc := congrArg Prod.snd heq
            simpa [Except.map] using hc
          injection hsnd with he
          obtain ⟨h, hmem, cause, hor⟩ := ih cache₁ evs₂ e₂ hrec
          exact ⟨h, List.mem_cons_of_mem _ hmem, cause, he ▸ hor⟩

/-! ### Claim theorems -/

/-- C2: `New` returns an error (and no renderer) exactly when some source has
an empty-or-whitespace-only chart reference or a release name that — after the
trim the validator applies — is empty, longer than 53 characters, or outside
the language of `[a-z0-9]([-a-z0-9]*[a-z0-9])?`; one invalid source rejects
the whole construction.  The boundary examples of the claim are confirmed:
a 53-character valid name is accepted, a 54-character one is rejected, and
"-abc", "abc-", "ABC" and "a_b" are all rejected. -/
theorem C2_construction_validation :
    (∀ (inputs : List Source) (opts : RendererOptions),
      exceptIsError (New inputs opts) = true ↔
        ∃ s ∈ inputs,
          (trimSpace s.chart).data = [] ∨
          (trimSpace s.releaseName).data = [] ∨
          (trimSpace s.releaseName).data.length > maxReleaseNameLength ∨
          releaseNameMatches (trimSpace s.releaseName) = false) ∧
    exceptIsError (New [{ chart := "c", releaseName := name53 }] {}) = false ∧
    exceptIsError (New [{ chart := "c", releaseName := name54 }] {}) = true ∧
    exceptIsError (New [{ chart := "c", releaseName := "-abc" }] {}) = true ∧
    exceptIsError (New [{ chart := "c", releaseName := "abc-" }] {}) = true ∧
    exceptIsError (New [{ chart := "c", releaseName := "ABC" }] {}) = true ∧
    exceptIsError (New [{ chart := "c", releaseName := "a_b" }] {}) = true :=
  ⟨New_error_iff, by decide, by decide, by decide, by decide, by decide, by decide⟩

/-- C3: the pipeline value merge is a deep merge in which the override side
wins — a key present on only one side is kept, two maps merge recursively,
any other override value (lists included) replaces the base value entirely,
and an empty/nil override leaves the base unchanged; `Renderer.values`
treats an absent values provider and a provider returning nil as the empty
source-values map rather than an error.  The spec examples are checked
concretely. -/
theorem C3_value_merge :
    (∀ (b ov : VMap) (k : String), (ov.map Prod.fst).Nodup →
      lookupAssoc (DeepMerge b ov) k =
        match lookupAssoc ov k with
        | none => lookupAssoc b k
        | some w => some (mergeVal (lookupAssoc b k) w)) ∧
    (∀ b : VMap, DeepMerge b [] = b) ∧
    (∀ (src : Source) (rtv : VMap), src.values = none →
      Renderer.values { source := src } rtv = .ok (DeepMerge [] rtv)) ∧
    (∀ (src : Source) (rtv : VMap), src.values = some (.ok none) →
      Renderer.values { source := src } rtv = .ok (DeepMerge [] rtv)) ∧
    DeepMerge [("a", .num 1), ("b", .obj [("x", .num 1)])] [("b", .obj [("y", .num 2)])] =
      [("a", .num 1), ("b", .obj [("x", .num 1), ("y", .num 2)])] ∧
    DeepMerge [("a", .arr [.num 1, .num 2])] [("a", .arr [.num 3])] = [("a", .arr [.num 3])] := by
  refine ⟨fun b ov k hnd => lookupAssoc_DeepMerge ov b k hnd, DeepMerge_nil, ?_, ?_, ?_, ?_⟩
  · intro src rtv hv
    simp [Renderer.values, hv]
  · intro src rtv hv
    simp [Renderer.values, hv]
  · simp [DeepMerge, mergeEntry, lookupAssoc, setAssoc]
  · simp [DeepMerge, mergeEntry, lookupAssoc, setAssoc]

/-- C3 witness: the merge characterisation evaluated at a concrete override
collision. -/
theorem C3_value_merge_witness :
    lookupAssoc (DeepMerge [("a", Value.num 1)] [("a", Value.num 2)]) "a" =
      some (Value.num 2) := by
  have h := C3_value_merge.1 [("a", Value.num 1)] [("a", Value.num 2)] "a" (by simp)
  rw [h]
  simp [lookupAssoc, mergeVal]

/-- C4: a failed `LoadChart` leaves the holder chart absent so a later call
retries the full locate-and-load, while a successful load is never cleared
or replaced — every later call returns the stored chart unchanged, whatever
the collaborators or context do. -/
theorem C4_load_state_machine :
    (∀ (co : Collaborators) (ctx : Ctx) (h : sourceHolder) (e : GoErr),
      h.chart = none → (h.LoadChart co ctx).2.2 = .error e →
      (h.LoadChart co ctx).1.chart = none) ∧
    (∀ (h : sourceHolder) (c : Chart), h.chart = some c →
      ∀ (co : Collaborators) (ctx : Ctx), h.LoadChart co ctx = (h, [], .ok c)) ∧
    (∀ (co : Collaborators) (h : sourceHolder) (opt : ChartPathOptions) (path : String)
        (c : Chart),
      h.chart = none →
      createChartPathOptions none h.source = .ok opt →
      co.locateChart opt h.source.chart = .ok path →
      co.loadChart path = .ok c →
      h.LoadChart co none = ({ h with chart := some c }, [.loadStarted], .ok c)) := by
  refine ⟨?_, ?_, ?_⟩
  · intro co ctx h e h₀ herr
    simp only [sourceHolder.LoadChart, h₀] at herr ⊢
    cases ctx with
    | some cause => simpa using h₀
    | none =>
      cases hopt : createChartPathOptions none h.source with
      | error e₂ => simp [hopt, h₀]
      | ok opt =>
        cases hloc : co.locateChart opt h.source.chart with
        | error e₂ => simp [hopt, hloc, h₀]
        | ok path =>
          cases hload : co.loadChart path with
          | error e₂ => simp [hopt, hloc, hload, h₀]
          | ok c => simp [hopt, hloc, hload] at herr
  · intro h c h₀ co ctx
    simp [sourceHolder.LoadChart, h₀]
  · intro co h opt path c h₀ hopt hloc hload
    simp [sourceHolder.LoadChart, h₀, hopt, hloc, hload]

/-- C4 witness: a loaded holder keeps returning its stored chart, and an
unloaded holder performs the full locate-and-load. -/
theorem C4_load_state_machine_witness :
    holderLoaded.LoadChart co0 none = (holderLoaded, [], .ok chart0) ∧
    holder0.LoadChart co0 none = ({ holder0 with chart := some chart0 }, [.loadStarted], .ok chart0) :=
  ⟨C4_load_state_machine.2.1 holderLoaded chart0 rfl co0 none,
    C4_load_state_machine.2.2 co0 holder0 { repoURL := "", version := "" } "/charts/app" chart0
      rfl rfl rfl rfl⟩

/-- C5: with an already cancelled or expired context, the load checkpoint at
slow-path entry and the checkpoint immediately before the render-collaborator
invocation each return an error that wraps the cancellation cause instead of
performing the expensive load or render — both on the no-cache path and on
the cache-configured miss path (the event lists show that neither the load
nor the render collaborator was invoked) — and the error is recognisable as
a cancellation error. -/
theorem C5_cancellation_checkpoints :
    (∀ (r : Renderer) (co : Collaborators) (h : sourceHolder) (rtv : VMap) (cause : CtxCause),
      h.chart = none →
      Renderer.processSingle r co (some cause) h rtv =
        (h, r.cache, [], .error (.wrap "context cancelled during chart load" (.ctxErr cause)))) ∧
    (∀ (r : Renderer) (co : Collaborators) (h : sourceHolder) (c : Chart) (rtv rv : VMap)
        (cause : CtxCause),
      h.chart = some c → r.cache = none →
      Renderer.processValues co h c rtv = .ok rv →
      Renderer.processSingle r co (some cause) h rtv =
        (h, none, [], .error (.wrap "context cancelled before render" (.ctxErr cause)))) ∧
    (∀ (r : Renderer) (co : Collaborators) (h : sourceHolder) (c : Chart) (cc : RenderCache)
        (rtv rv : VMap) (cause : CtxCause),
      h.chart = some c → r.cache = some cc →
      Renderer.processValues co h c rtv = .ok rv →
      RenderCache.get (RenderCache.sync cc)
        { chart := h.source.chart, releaseName := h.source.releaseName,
          releaseVersion := h.source.releaseVersion, values := rv } = none →
      Renderer.processSingle r co (some cause) h rtv =
        (h, some (RenderCache.sync cc), [.cacheLookup],
          .error (.wrap "context cancelled before render" (.ctxErr cause)))) ∧
    (∀ cause : CtxCause,
      (GoErr.wrap "context cancelled during chart load" (.ctxErr cause)).isCtxErr = true ∧
      (GoErr.wrap "context cancelled before render" (.ctxErr cause)).isCtxErr = true ∧
      ∀ msg : String, (GoErr.base msg).isCtxErr = false) := by
  refine ⟨?_, ?_, ?_, ?_⟩
  · intro r co h rtv cause h₀
    simp [Renderer.processSingle, sourceHolder.LoadChart, h₀]
  · intro r co h c rtv rv cause h₀ hcache hpv
    simp [Renderer.processSingle, sourceHolder.LoadChart, h₀, hcache, hpv, renderAndDecode]
  · intro r co h c cc rtv rv cause h₀ hcache hpv hmiss
    simp [Renderer.processSingle, sourceHolder.LoadChart, h₀, hcache, hpv, hmiss,
      renderAndDecode]
  · intro cause
    exact ⟨rfl, rfl, fun msg => rfl⟩

/-- C5 witness: the checkpoints evaluated on concrete renderers whose context
is already cancelled — an unloaded holder, a loaded holder without a cache,
and a loaded holder whose configured cache misses. -/
theorem C5_cancellation_checkpoints_witness :
    Renderer.processSingle renderer0 co0 (some .canceled) holder0 [] =
      (holder0, none, [],
        .error (.wrap "context cancelled during chart load" (.ctxErr .canceled))) ∧
    Renderer.processSingle renderer0 co0 (some .canceled) holderLoaded [] =
      (holderLoaded, none, [],
        .error (.wrap "context cancelled before render" (.ctxErr .canceled))) ∧
    Renderer.processSingle rendererCached co0 (some .canceled) holderLoaded [] =
      (holderLoaded, some (RenderCache.sync cache0), [.cacheLookup],
        .error (.wrap "context cancelled before render" (.ctxErr .canceled))) :=
  ⟨C5_cancellation_checkpoints.1 renderer0 co0 holder0 [] .canceled rfl,
    C5_cancellation_checkpoints.2.1 renderer0 co0 holderLoaded chart0 [] [] .canceled rfl rfl
      (by simp [Renderer.processValues, Renderer.values, DeepMerge, co0, src0, holderLoaded]),
    C5_cancellation_checkpoints.2.2.1 rendererCached co0 holderLoaded chart0 cache0 [] []
      .canceled rfl rfl
      (by simp [Renderer.processValues, Renderer.values, DeepMerge, co0, src0, holderLoaded])
      rfl⟩

/-- C7: two `ChartSpec` values that agree on chart, release name and release
version but differ in merged values always get the same key under the fast
strategy (a hit on the second render) and always get different keys under
the full/default strategy (a guaranteed miss for any value change). -/
theorem C7_key_strategy_discrimination (s₁ s₂ : ChartSpec)
    (hc : s₁.chart = s₂.chart) (hr : s₁.releaseName = s₂.releaseName)
    (hv : s₁.releaseVersion = s₂.releaseVersion) (hne : s₁.values ≠ s₂.values) :
    FastCacheKeyFunc s₁ = FastCacheKeyFunc s₂ ∧ DefaultCacheKey s₁ ≠ DefaultCacheKey s₂ := by
  constructor
  · simp [FastCacheKeyFunc, hc, hr, hv]
  · intro hkey
    exact hne (congrArg ChartSpec.values (dumpForHash_inj hkey))

/-- C7 witness: the two strategies evaluated on a concrete pair of specs that
differ only in their values. -/
theorem C7_key_strategy_discrimination_witness :
    FastCacheKeyFunc
        { chart := "app", releaseName := "r", releaseVersion := "1",
          values := [("a", Value.num 1)] } =
      FastCacheKeyFunc
        { chart := "app", releaseName := "r", releaseVersion := "1", values := [] } ∧
    DefaultCacheKey
        { chart := "app", releaseName := "r", releaseVersion := "1",
          values := [("a", Value.num 1)] } ≠
      DefaultCacheKey
        { chart := "app", releaseName := "r", releaseVersion := "1", values := [] } :=
  C7_key_strategy_discrimination _ _ rfl rfl rfl (by simp)

/-- C9: for K concurrent `LoadChart` calls on one unloaded holder — modelled
by the serialisation the holder mutex enforces on the critical sections —
the locate-and-load collaborator pair runs exactly once and every call
returns the same loaded chart. -/
theorem C9_exactly_once_load (co : Collaborators) (h : sourceHolder) (k : Nat)
    (opt : ChartPathOptions) (path : String) (c : Chart)
    (h₀ : h.chart = none)
    (hopt : createChartPathOptions none h.source = .ok opt)
    (hloc : co.locateChart opt h.source.chart = .ok path)
    (hload : co.loadChart path = .ok c)
    (hk : 1 ≤ k) :
    (runLoads co none k h).1 = { h with chart := some c } ∧
    (runLoads co none k h).2.1.count Ev.loadStarted = 1 ∧
    (runLoads co none k h).2.2 = List.replicate k (.ok c) := by
  obtain ⟨n, rfl⟩ : ∃ n, k = n + 1 := ⟨k - 1, by omega⟩
  have hfirst : h.LoadChart co none = ({ h with chart := some c }, [.loadStarted], .ok c) := by
    simp [sourceHolder.LoadChart, h₀, hopt, hloc, hload]
  have hrest := runLoads_of_loaded co none c n { h with chart := some c } rfl
  simp [runLoads, hfirst, hrest, List.replicate_succ]

/-- C9 witness: three serialised calls on a fresh holder load once and all
return the same chart. -/
theorem C9_exactly_once_load_witness :
    (runLoads co0 none 3 holder0).1 = { holder0 with chart := some chart0 } ∧
    (runLoads co0 none 3 holder0).2.1.count Ev.loadStarted = 1 ∧
    (runLoads co0 none 3 holder0).2.2 = List.replicate 3 (.ok chart0) :=
  C9_exactly_once_load co0 holder0 3 { repoURL := "", version := "" } "/charts/app" chart0
    rfl rfl rfl rfl (by decide)

/-- C10: only rendered outputs whose name ends in ".yaml" or ".yml" are
decoded and contribute objects — the whole computation (events, objects and
errors alike) is unchanged when every other output is dropped, so a non-YAML
output can neither produce objects nor a decode error — and every decode
event carries a YAML output name. -/
theorem C10_yaml_only_decoding :
    (∀ (opts : RendererOptions) (co : Collaborators) (h : sourceHolder)
        (files : List (String × String)),
      processRenderedTemplates opts co h files =
        processRenderedTemplates opts co h (files.filter fun kv => hasYamlSuffix kv.1)) ∧
    (∀ (opts : RendererOptions) (co : Collaborators) (h : sourceHolder)
        (files : List (String × String)) (k : String),
      Ev.decodeFile k ∈ (processRenderedTemplates opts co h files).1 →
      hasYamlSuffix k = true) := by
  constructor
  · intro opts co h files
    induction files with
    | nil => rfl
    | cons hd tl ih =>
      obtain ⟨k, v⟩ := hd
      cases hk : hasYamlSuffix k with
      | false =>
        rw [processRT_cons_skip opts co h k v tl hk, ih, List.filter_cons]
        simp [hk]
      | true =>
        cases hd₂ : co.decodeYAML v with
        | error e =>
          rw [processRT_cons_yaml_err opts co h k v tl e hk hd₂, List.filter_cons]
          simp only [hk, if_true]
          rw [processRT_cons_yaml_err opts co h k v _ e hk hd₂]
        | ok objects =>
          rw [processRT_cons_yaml_ok opts co h k v tl objects hk hd₂, List.filter_cons]
          simp only [hk, if_true]
          rw [processRT_cons_yaml_ok opts co h k v _ objects hk hd₂, ih]
  · intro opts co h files k hmem
    obtain ⟨n, heq⟩ := processRenderedTemplates_events opts co h files _ hmem
    cases heq
    revert hmem
    induction files with
    | nil => simp [processRenderedTemplates]
    | cons hd tl ih =>
      obtain ⟨k₁, v⟩ := hd
      intro hmem
      cases hk : hasYamlSuffix k₁ with
      | false =>
        rw [processRT_cons_skip opts co h k₁ v tl hk] at hmem
        exact ih hmem
      | true =>
        cases hd₂ : co.decodeYAML v with
        | error e =>
          rw [processRT_cons_yaml_err opts co h k₁ v tl e hk hd₂] at hmem
          simp only [List.mem_singleton, Ev.decodeFile.injEq] at hmem
          rwa [hmem]
        | ok objects =>
          rw [processRT_cons_yaml_ok opts co h k₁ v tl objects hk hd₂] at hmem
          simp only [List.mem_cons, Ev.decodeFile.injEq] at hmem
          cases hmem with
          | inl heq => rwa [heq]
          | inr hmem => exact ih (by simpa using hmem)

/-- C10 witness: the decode-event property evaluated on a concrete rendered
file map. -/
theorem C10_yaml_only_decoding_witness : hasYamlSuffix "x.yaml" = true :=
  C10_yaml_only_decoding.2 {} co0 holder0 [("x.yaml", "A")] "x.yaml" (by decide)

/-- C8: when no cache options are supplied, `newCache` instantiates no cache
component; a renderer whose cache field is nil performs neither the cache
lookup nor the cache store on any `processSingle` call, and every successful
call reaches the render collaborator (a full render). -/
theorem C8_cache_absent_no_ops :
    newCache none = none ∧
    (∀ (r : Renderer) (co : Collaborators) (ctx : Ctx) (h : sourceHolder) (rtv : VMap),
      r.cache = none →
      (Renderer.processSingle r co ctx h rtv).2.1 = none ∧
      Ev.cacheLookup ∉ (Renderer.processSingle r co ctx h rtv).2.2.1 ∧
      Ev.cacheStore ∉ (Renderer.processSingle r co ctx h rtv).2.2.1 ∧
      (∀ objects, (Renderer.processSingle r co ctx h rtv).2.2.2 = .ok objects →
        Ev.renderStarted ∈ (Renderer.processSingle r co ctx h rtv).2.2.1)) := by
  refine ⟨rfl, ?_⟩
  intro r co ctx h rtv hcache
  rcases hl : sourceHolder.LoadChart co ctx h with ⟨h₁, evs, res₁⟩
  have hevs : evs = [] ∨ evs = [.loadStarted] := by
    have hle := LoadChart_events co ctx h
    rw [hl] at hle
    exact hle
  have hevsne : Ev.cacheLookup ∉ evs ∧ Ev.cacheStore ∉ evs := by
    cases hevs with
    | inl he => simp [he]
    | inr he => simp [he]
  cases res₁ with
  | error e =>
    simp only [Renderer.processSingle, hl]
    exact ⟨hcache, hevsne.1, hevsne.2, fun objects hobj => by simp at hobj⟩
  | ok chart =>
    cases hpv : Renderer.processValues co h₁ chart rtv with
    | error e =>
      simp only [Renderer.processSingle, hl, hpv]
      exact ⟨hcache, hevsne.1, hevsne.2, fun objects hobj => by simp at hobj⟩
    | ok rv =>
      rcases hrd : renderAndDecode r.opts co ctx h₁ chart rv with ⟨evs₂, res₂⟩
      have hev₂ : ∀ ev ∈ evs₂, ev = Ev.renderStarted ∨ ∃ n, ev = Ev.decodeFile n := by
        intro ev hm
        exact renderAndDecode_events r.opts co ctx h₁ chart rv ev (by rw [hrd]; exact hm)
      simp only [Renderer.processSingle, hl, hpv, hcache, hrd]
      refine ⟨trivial, ?_, ?_, ?_⟩
      · intro hm
        rcases List.mem_append.mp hm with hm | hm
        · exact hevsne.1 hm
        · rcases hev₂ _ hm with heq | ⟨n, heq⟩ <;> simp at heq
      · intro hm
        rcases List.mem_append.mp hm with hm | hm
        · exact hevsne.2 hm
        · rcases hev₂ _ hm with heq | ⟨n, heq⟩ <;> simp at heq
      · intro objects hobj
        cases res₂ with
        | error e => simp at hobj
        | ok os =>
          exact List.mem_append.mpr
            (Or.inr (renderAndDecode_ok_mem r.opts co ctx h₁ chart rv evs₂ os hrd))

/-- C1: the multi-source loop is fail-fast — a failing source (chart load,
values/credentials provider, dependency processing, render or decode) makes
the whole call return an error that carries the failing source chart
location and release name and wraps the underlying cause, the remaining
sources are never consulted and no objects accompany the error; successful
sources only contribute once the whole call succeeds; and every error a
`Process` call can return names one of its configured sources this way. -/
theorem C1_fail_fast_no_partial :
    (∀ (r : Renderer) (co : Collaborators) (ctx : Ctx) (rtv : VMap) (h : sourceHolder)
        (rest : List sourceHolder) (cache : Option RenderCache) (h₁ : sourceHolder)
        (cache₁ : Option RenderCache) (evs : List Ev) (e : GoErr),
      Renderer.processSingle { r with cache := cache } co ctx h rtv =
        (h₁, cache₁, evs, .error e) →
      processLoop r co ctx rtv (h :: rest) cache =
        (evs,
          .error (.wrapSrc "error rendering helm chart" h.source.chart
            h.source.releaseName e))) ∧
    (∀ (r : Renderer) (co : Collaborators) (ctx : Ctx) (rtv : VMap) (h : sourceHolder)
        (rest : List sourceHolder) (cache : Option RenderCache) (h₁ : sourceHolder)
        (cache₁ : Option RenderCache) (evs : List Ev) (objects : List Obj) (e : GoErr),
      Renderer.processSingle { r with cache := cache } co ctx h rtv =
        (h₁, cache₁, evs, .ok objects) →
      pipelineApply r.opts.filters r.opts.transformers objects = .error e →
      processLoop r co ctx rtv (h :: rest) cache =
        (evs,
          .error (.wrapSrc "error applying filters/transformers to helm chart" h.source.chart
            h.source.releaseName e))) ∧
    (∀ (r : Renderer) (co : Collaborators) (ctx : Ctx) (rtv : VMap) (evs : List Ev) (e : GoErr),
      Renderer.Process r co ctx rtv = (evs, .error e) →
      ∃ h ∈ r.sources, ∃ cause,
        e = .wrapSrc "error rendering helm chart" h.source.chart h.source.releaseName cause ∨
        e = .wrapSrc "error applying filters/transformers to helm chart" h.source.chart
          h.source.releaseName cause) :=
  ⟨processLoop_cons_error, processLoop_cons_pipeline_error,
    fun r co ctx rtv evs e heq => processLoop_error_shape r co ctx rtv r.sources r.cache evs e heq⟩

/-- C1 witness: a two-source renderer whose first source fails to locate —
the call aborts with that source identity and the located cause wrapped, and
the second (healthy) source contributes nothing. -/
theorem C1_fail_fast_no_partial_witness :
    processLoop rendererMulti co0 none [] [holderMissing, holder0] none =
      ([.loadStarted],
        .error (.wrapSrc "error rendering helm chart" "missing" "bad-src"
          (.wrapLoc "unable to locate chart" "" "missing" "" (.base "no such chart")))) :=
  C1_fail_fast_no_partial.1 rendererMulti co0 none [] holderMissing [holder0] none
    holderMissing none [.loadStarted]
    (.wrapLoc "unable to locate chart" "" "missing" "" (.base "no such chart")) rfl

/-- C6 counterexample: the template-rendered objects of one source are
emitted in the iteration order of the rendered-files map, and two traversal
orders of the same map give observably different object orders — so the
order is not pinned by the call inputs, contradicting the stability the
claim asserts (Go randomises map iteration order between calls). -/
theorem C6_order_counterexample :
    ([("a.yaml", "A"), ("b.yaml", "B")] : List (String × String)).Perm
        [("b.yaml", "B"), ("a.yaml", "A")] ∧
    (processRenderedTemplates {} co0 holder0 [("a.yaml", "A"), ("b.yaml", "B")]).2 =
      .ok [objA, objB] ∧
    (processRenderedTemplates {} co0 holder0 [("b.yaml", "B"), ("a.yaml", "A")]).2 =
      .ok [objB, objA] ∧
    objA ≠ objB :=
  ⟨by decide, rfl, rfl, by decide⟩

/-- C6 (amended): per call the output order is structurally determined —
sources contribute in configuration order, within a source the declared CRD
objects precede the template-rendered objects, and the template objects
follow the traversal order of the rendered-files sequence file by file; that
traversal order is the Go map iteration order, which is an input of the
model and is not guaranteed stable across repeated calls. -/
theorem C6_deterministic_order_amended :
    (∀ (opts : RendererOptions) (co : Collaborators) (h : sourceHolder)
        (xs ys : List (String × String)) (exs eys : List Ev) (oxs oys : List Obj),
      processRenderedTemplates opts co h xs = (exs, .ok oxs) →
      processRenderedTemplates opts co h ys = (eys, .ok oys) →
      processRenderedTemplates opts co h (xs ++ ys) = (exs ++ eys, .ok (oxs ++ oys))) ∧
    (∀ (opts : RendererOptions) (co : Collaborators) (h : sourceHolder) (chart : Chart)
        (rv : VMap) (files : List (String × String)) (evs₁ evs₂ : List Ev)
        (os₁ os₂ : List Obj),
      co.renderChart chart rv = .ok files →
      processCRDs opts co h chart.crds = (evs₁, .ok os₁) →
      processRenderedTemplates opts co h files = (evs₂, .ok os₂) →
      renderAndDecode opts co none h chart rv =
        (.renderStarted :: evs₁ ++ evs₂, .ok (os₁ ++ os₂))) ∧
    (∀ (r : Renderer) (co : Collaborators) (ctx : Ctx) (rtv : VMap) (h : sourceHolder)
        (rest : List sourceHolder) (cache : Option RenderCache) (h₁ : sourceHolder)
        (cache₁ : Option RenderCache) (evs : List Ev) (objects transformed : List Obj),
      Renderer.processSingle { r with cache := cache } co ctx h rtv =
        (h₁, cache₁, evs, .ok objects) →
      pipelineApply r.opts.filters r.opts.transformers objects = .ok transformed →
      processLoop r co ctx rtv (h :: rest) cache =
        (evs ++ (processLoop r co ctx rtv rest cache₁).1,
          (processLoop r co ctx rtv rest cache₁).2.map fun tail => transformed ++ tail)) := by
  refine ⟨?_, ?_, processLoop_cons_ok⟩
  · intro opts co h xs
    induction xs with
    | nil =>
      intro ys exs eys oxs oys hx hy
      simp only [processRenderedTemplates, Prod.mk.injEq] at hx
      obtain ⟨rfl, hok⟩ := hx
      injection hok with hok
      subst hok
      simpa using hy
    | cons hd tl ih =>
      obtain ⟨k, v⟩ := hd
      intro ys exs eys oxs oys hx hy
      cases hk : hasYamlSuffix k with
      | false =>
        rw [processRT_cons_skip opts co h k v tl hk] at hx
        rw [List.cons_append, processRT_cons_skip opts co h k v (tl ++ ys) hk]
        exact ih ys exs eys oxs oys hx hy
      | true =>
        cases hd₂ : co.decodeYAML v with
        | error e =>
          rw [processRT_cons_yaml_err opts co h k v tl e hk hd₂] at hx
          simp at hx
        | ok objects =>
          rw [processRT_cons_yaml_ok opts co h k v tl objects hk hd₂] at hx
          rcases hpt : processRenderedTemplates opts co h tl with ⟨evs', res'⟩
          rw [hpt] at hx
          cases res' with
          | error e => simp [Except.map] at hx
          | ok os' =>
            simp only [Except.map, Prod.mk.injEq] at hx
            obtain ⟨hexs, hok⟩ := hx
            injection hok with hok
            rw [List.cons_append, processRT_cons_yaml_ok opts co h k v (tl ++ ys) objects hk hd₂,
              ih ys evs' eys os' oys hpt hy]
            simp [← hexs, ← hok, Except.map, List.append_assoc]
  · intro opts co h chart rv files evs₁ evs₂ os₁ os₂ hre hcrd hpt
    simp [renderAndDecode, hre, hcrd, hpt]

/-- C6 witness: the amended order decomposition evaluated on one concrete
source — the CRD object precedes the template object, and the template
objects follow the given file traversal order. -/
theorem C6_deterministic_order_amended_witness :
    renderAndDecode {} co0 none holderLoaded chart0 [] =
      (.renderStarted :: [Ev.decodeFile "crds/c0.yaml"] ++ [Ev.decodeFile "templates/a.yaml"],
        .ok ([{ content := "C0" }] ++ [objA])) :=
  C6_deterministic_order_amended.2.1 {} co0 holderLoaded chart0 []
    [("templates/a.yaml", "A"), ("NOTES.txt", "boom")]
    [Ev.decodeFile "crds/c0.yaml"] [Ev.decodeFile "templates/a.yaml"]
    [{ content := "C0" }] [objA] rfl rfl rfl

/-- C8 witness: a cache-free renderer evaluated on a concrete source — no
cache events, and the render collaborator runs. -/
theorem C8_cache_absent_no_ops_witness :
    (Renderer.processSingle renderer0 co0 none holder0 []).2.1 = none ∧
    Ev.cacheLookup ∉ (Renderer.processSingle renderer0 co0 none holder0 []).2.2.1 ∧
    Ev.cacheStore ∉ (Renderer.processSingle renderer0 co0 none holder0 []).2.2.1 ∧
    Ev.renderStarted ∈ (Renderer.processSingle renderer0 co0 none holder0 []).2.2.1 := by
  have h := C8_cache_absent_no_ops.2 renderer0 co0 none holder0 [] rfl
  refine ⟨h.1, h.2.1, h.2.2.1, h.2.2.2 [{ content := "C0" }, { content := "A" }] ?_⟩
  rfl

end RendererHelm
